import Mathlib

/-!
Verification development for the client-side scripts of the
GreenSquareCapital web application (static/js).  Each JavaScript file is
shallowly embedded as pure Lean functions over explicit state types:

* `listing_stepper.js` — the StepGate (`hasValue`, `stepOk`,
  `mediaSelected`, `setPill`, `sync`) and the listing-edit location
  cascade (`setOptions`, `loadCounties`, `loadOutcodes`);
* `search_filters.js` — the search-filter location cascade
  (`resetSelect`, `loadCounties`, `loadOutcodes`);
* `pledge_progress.js` — the debounced pledge-return estimator;
* `click_hold_drag_scroll.js` — the drag-to-scroll pointer state machine.
-/

namespace GSC

/-- JavaScript `String.prototype.trim()`: strip whitespace from both
ends, modelled executably over the character list of the string. -/
def jsTrim (s : String) : String :=
  ⟨((s.data.dropWhile Char.isWhitespace).reverse.dropWhile Char.isWhitespace).reverse⟩

/-- JavaScript `String.prototype.toLowerCase()` on the ASCII alphabet,
modelled executably over the character list of the string. -/
def jsToLower (s : String) : String :=
  ⟨s.data.map Char.toLower⟩

/-! ## StepGate (`listing_stepper.js`, stepper IIFE)

DOM form state is modelled as an association list from CSS selector to the
element value (`document.querySelector` returns the first match, as
`List.lookup` returns the first binding; a selector absent from the list
is a selector that resolves to no element), plus the `files.length` of the
two media inputs (`none` = the file input element is absent). -/

structure FormState where
  fields : List (String × String)
  imgFiles : Option Nat
  docFiles : Option Nat
  deriving Repr, DecidableEq

/-- `hasValue` from `listing_stepper.js`:
`const el = document.querySelector(sel); if (!el) return false;
return String(el.value || "").trim() !== "";` -/
def hasValue (st : FormState) (sel : String) : Bool :=
  match st.fields.lookup sel with
  | none => false
  | some v => jsTrim v != ""

/-- `stepOk` from `listing_stepper.js`: `(selectors || []).every(hasValue)` -/
def stepOk (st : FormState) (selectors : List String) : Bool :=
  selectors.all (hasValue st)

/-- `required.step1` -/
def requiredStep1 : List String := ["#id_project_duration_days"]

/-- `required.step2` -/
def requiredStep2 : List String := ["#id_source_use", "#id_target_use"]

/-- `required.step3` -/
def requiredStep3 : List String :=
  ["#id_funding_band", "#id_return_type", "#id_return_band", "#id_duration_days"]

/-- `required.step4` -/
def requiredStep4 : List String := ["#id_country", "#id_county", "#id_postcode_prefix"]

/-- `mediaSelected` from `listing_stepper.js`:
`const imgCount = imgInput?.files?.length || 0;
const docCount = docInput?.files?.length || 0;
return imgCount + docCount > 0;` -/
def mediaSelected (st : FormState) : Bool :=
  st.imgFiles.getD 0 + st.docFiles.getD 0 > 0

/-- The classes managed by `setPill` (`el.classList.remove(...)` list). -/
def pillManaged : List String :=
  ["bg-success", "text-white", "bg-light", "text-dark", "border"]

/-- `setPill` from `listing_stepper.js`, acting on an element's class list:
removes the five managed classes, then adds the success pair or the
neutral triple.  (`classList.add` never duplicates; after the removal the
added classes are absent, so appending is exact.) -/
def setPill (cls : List String) (ok : Bool) : List String :=
  let base := cls.filter (fun c => !(pillManaged.contains c))
  if ok then base ++ ["bg-success", "text-white"]
  else base ++ ["bg-light", "text-dark", "border"]

/-- The classes managed on the two message elements. -/
def msgManaged : List String := ["text-success", "text-muted"]

/-- Visible UI state written by `sync`: class lists of the six stepper
pills and the six card pills, the two status messages (class list and
text), and the activate button's `disabled` attribute. -/
structure Visible where
  s1 : List String
  s2 : List String
  s3 : List String
  s4 : List String
  s5 : List String
  s6 : List String
  c1 : List String
  c2 : List String
  c3 : List String
  c4 : List String
  c5 : List String
  c6 : List String
  msgClasses : List String
  msgText : String
  msg6Classes : List String
  msg6Text : String
  activateDisabled : Bool
  deriving Repr, DecidableEq

/-- `sync` from `listing_stepper.js`: recomputes the five step predicates
from the current form state and rewrites all visible indicator state. -/
def sync (st : FormState) (v : Visible) : Visible :=
  let ok1 := stepOk st requiredStep1
  let ok2 := stepOk st requiredStep2
  let ok3 := stepOk st requiredStep3
  let ok4 := stepOk st requiredStep4
  let ok5 := mediaSelected st
  let okAll := ok1 && ok2 && ok3 && ok4 && ok5
  { s1 := setPill v.s1 ok1
    s2 := setPill v.s2 ok2
    s3 := setPill v.s3 ok3
    s4 := setPill v.s4 ok4
    s5 := setPill v.s5 ok5
    s6 := setPill v.s6 okAll
    c1 := setPill v.c1 ok1
    c2 := setPill v.c2 ok2
    c3 := setPill v.c3 ok3
    c4 := setPill v.c4 ok4
    c5 := setPill v.c5 ok5
    c6 := setPill v.c6 okAll
    msgClasses := (v.msgClasses.filter (fun c => !(msgManaged.contains c))) ++
      (if okAll then ["text-success"] else ["text-muted"])
    msgText :=
      if okAll then "Steps 1–5 complete — activation is available."
      else "Complete steps 1–5 to enable activation. You can save a draft at any time."
    msg6Classes := (v.msg6Classes.filter (fun c => !(msgManaged.contains c))) ++
      (if okAll then ["text-success"] else ["text-muted"])
    msg6Text :=
      if okAll then "Ready to activate — you’ll be taken to payment."
      else if !ok5 then "Upload at least one image or document to complete Step 5."
      else "Complete Steps 1–5 to enable activation."
    activateDisabled := !okAll }

/-! ## Location cascade select model

A `<select>` element is modelled by its option list (value, text), its
current value, and its `disabled` flag.  DOM semantics captured:
appending the first option to an empty select makes it the displayed
value; `opt.selected = true` selects that option; assigning
`select.value = v` selects the first option whose value is `v`, and when
no option matches it leaves `selectedIndex = -1`, whose read-back value
is `""`. -/

structure SelOption where
  value : String
  text : String
  deriving Repr, DecidableEq

structure Select where
  opts : List SelOption
  value : String
  disabled : Bool
  deriving Repr, DecidableEq

/-- `selectEl.appendChild(opt)` where `opt.selected` may have been set. -/
def appendOpt (s : Select) (o : SelOption) (sel : Bool) : Select :=
  { s with
    opts := s.opts ++ [o]
    value := if sel then o.value else if s.opts.isEmpty then o.value else s.value }

/-- `selectEl.value = v`: selects the option with value `v` when present,
otherwise no option is selected and the read-back value is `""`. -/
def setValue (s : Select) (v : String) : Select :=
  if (s.opts.map SelOption.value).contains v then { s with value := v }
  else { s with value := "" }

/-- `setOptions` from `listing_stepper.js`: clears the select
(`innerHTML = ""`), appends the placeholder option (value `""`), appends
one option per item marking it selected when it equals a non-empty
`selectedValue`, then force-assigns `selectEl.value = selectedValue`
when `selectedValue` is non-empty. -/
def setOptions (selectEl : Select) (items : List String) (placeholder : String)
    (selectedValue : String) : Select :=
  let s := { selectEl with opts := [], value := "" }
  let s := appendOpt s ⟨"", placeholder⟩ false
  let s := items.foldl
    (fun acc v => appendOpt acc ⟨v, v⟩ ((selectedValue != "") && (v == selectedValue))) s
  if selectedValue != "" then setValue s selectedValue else s

/-- `resetSelect` from `search_filters.js`: clear and append the single
placeholder option. -/
def resetSelect (el : Select) (placeholder : String) : Select :=
  appendOpt { el with opts := [], value := "" } ⟨"", placeholder⟩ false

/-- The JSON body of a counties fetch response together with its HTTP
success flag (`res.ok`); `counties = none` models a body without a
`counties` field (`data.counties || []`). -/
structure CountiesResp where
  ok : Bool
  counties : Option (List String)
  deriving Repr, DecidableEq

/-- The JSON body of an outcodes fetch response together with its HTTP
success flag. -/
structure OutcodesResp where
  ok : Bool
  outcodes : Option (List String)
  deriving Repr, DecidableEq

/-- Result of a cascade load: the two dependent selects and the log of
fetches issued (endpoint tag, query key). -/
structure CascadeOut where
  countyEl : Select
  outcodeEl : Select
  fetches : List (String × String)
  deriving Repr, DecidableEq

/-- `loadOutcodes` from `listing_stepper.js` (listing-edit cascade):
resets the outcode select, then — when the county key and endpoint URL
are both non-empty — fetches, abandons on a non-success response
(`if (!res.ok) return`), and otherwise repopulates with
`data.outcodes || []` selecting `selectedOutcode`. -/
def loadOutcodes (outcodeEl : Select) (OUTCODES_URL : String) (countyElValue : String)
    (resp : OutcodesResp) (selectedOutcode : String) (countyOverride : String) :
    Select × List (String × String) :=
  let county := jsTrim (if countyOverride != "" then countyOverride else countyElValue)
  let outcodeEl := setOptions outcodeEl [] "Select postcode prefix" ""
  if county == "" || OUTCODES_URL == "" then (outcodeEl, [])
  else if !resp.ok then (outcodeEl, [("outcodes", county)])
  else (setOptions outcodeEl (resp.outcodes.getD []) "Select postcode prefix" selectedOutcode,
        [("outcodes", county)])

/-- `loadCounties` from `listing_stepper.js` (listing-edit cascade):
resets both dependent selects, guards on empty country / missing
endpoint, abandons on a non-success response, repopulates the county
select selecting `selectedCounty`, and — when a county ends up chosen —
assigns it to the county select and cascades into `loadOutcodes` with
the saved initial outcode. -/
def loadCounties (countyEl outcodeEl : Select) (COUNTIES_URL OUTCODES_URL : String)
    (countryElValue : String) (cResp : CountiesResp) (oResp : OutcodesResp)
    (selectedCounty : String) (initialOutcode : String) : CascadeOut :=
  let country := jsTrim countryElValue
  let countyEl := setOptions countyEl [] "Select county" ""
  let outcodeEl := setOptions outcodeEl [] "Select postcode prefix" ""
  if country == "" || COUNTIES_URL == "" then ⟨countyEl, outcodeEl, []⟩
  else if !cResp.ok then ⟨countyEl, outcodeEl, [("counties", country)]⟩
  else
    let countyEl := setOptions countyEl (cResp.counties.getD []) "Select county" selectedCounty
    let countyNow := jsTrim (if selectedCounty != "" then selectedCounty else countyEl.value)
    if countyNow == "" then ⟨countyEl, outcodeEl, [("counties", country)]⟩
    else
      let countyEl := setValue countyEl countyNow
      let out := loadOutcodes outcodeEl OUTCODES_URL countyEl.value oResp initialOutcode countyNow
      ⟨countyEl, out.1, ("counties", country) :: out.2⟩

/-- `loadOutcodes` from `search_filters.js` (search-filter cascade):
resets and disables the outcode select, guards on an empty county key,
fetches, and — with NO `res.ok` check — appends `data.outcodes || []`
from whatever body the response carries, then re-enables the select. -/
def searchLoadOutcodes (outcodeEl : Select) (countyValue : String) (resp : OutcodesResp)
    (selectedOutcode : String) : Select × List (String × String) :=
  let outcodeEl := { resetSelect outcodeEl "Any prefix" with disabled := true }
  if countyValue == "" then (outcodeEl, [])
  else
    let outcodeEl := (resp.outcodes.getD []).foldl
      (fun acc o => appendOpt acc ⟨o, o⟩ ((selectedOutcode != "") && (selectedOutcode == o)))
      outcodeEl
    ({ outcodeEl with disabled := false }, [("outcodes", countyValue)])

/-- `loadCounties` from `search_filters.js` (search-filter cascade; only
reachable when both endpoint URLs are present — the IIFE returns early
otherwise): resets and disables both dependent selects, guards on an
empty country, fetches with the lower-cased country key, and — with NO
`res.ok` check — appends `data.counties || []` from whatever body the
response carries, re-enables the county select, and cascades into
outcode loading when a county is preselected. -/
def searchLoadCounties (countyEl outcodeEl : Select) (countryValue : String)
    (cResp : CountiesResp) (oResp : OutcodesResp) (selectedCounty : String)
    (outcodeDatasetSelected : String) : CascadeOut :=
  let countyEl := { resetSelect countyEl "Any county" with disabled := true }
  let outcodeEl := { resetSelect outcodeEl "Any prefix" with disabled := true }
  if countryValue == "" then ⟨countyEl, outcodeEl, []⟩
  else
    let countyEl := (cResp.counties.getD []).foldl
      (fun acc c => appendOpt acc ⟨c, c⟩ ((selectedCounty != "") && (selectedCounty == c)))
      countyEl
    let countyEl := { countyEl with disabled := false }
    if selectedCounty != "" then
      let out := searchLoadOutcodes outcodeEl selectedCounty oResp outcodeDatasetSelected
      ⟨countyEl, out.1, ("counties", jsToLower countryValue) :: out.2⟩
    else ⟨countyEl, outcodeEl, [("counties", jsToLower countryValue)]⟩

/-! ## Pledge estimator debounce (`pledge_progress.js`)

Input events are a time-ordered list of (timestamp ms, field value).
Each input clears the pending timer and schedules a new one 300 ms out;
a timer scheduled at `t` fires unless a later input arrives strictly
before `t + 300`.  The fired callback reads the field's CURRENT value
(`input.value.trim()` at fire time), skips the fetch when it is blank,
and otherwise issues one fetch keyed by the trimmed value. -/

/-- The field's value at query time `tq`: the value of the latest input
event at or before `tq` (`cur` is the value before any listed event). -/
def valueAt : List (Nat × String) → Nat → String → String
  | [], _, cur => cur
  | (t, v) :: rest, tq, cur => if t ≤ tq then valueAt rest tq v else cur

/-- Expiry times of the debounce timers that actually fire: the timer of
event `i` is cancelled (`clearTimeout`) when the next event arrives
strictly before its 300 ms expiry. -/
def fireTimes : List (Nat × String) → List Nat
  | [] => []
  | [(t, _)] => [t + 300]
  | (t1, _) :: (t2, v2) :: rest =>
    if t2 < t1 + 300 then fireTimes ((t2, v2) :: rest)
    else (t1 + 300) :: fireTimes ((t2, v2) :: rest)

/-- The amounts fetched by the pledge estimator for a trace of input
events: one fetch per fired timer, keyed by the trimmed field value at
fire time, skipped when blank. -/
def pledgeFetches (evs : List (Nat × String)) : List String :=
  (fireTimes evs).filterMap (fun tf =>
    let val := jsTrim (valueAt evs tf "")
    if val == "" then none else some val)

/-- A burst: time-ordered input events whose consecutive gaps are all
strictly inside the 300 ms debounce window. -/
def burst : List (Nat × String) → Bool
  | [] => true
  | [_] => true
  | (t1, _) :: (t2, v2) :: rest =>
    (decide (t1 ≤ t2) && decide (t2 < t1 + 300)) && burst ((t2, v2) :: rest)

/-! ## Drag-to-scroll state machine (`click_hold_drag_scroll.js`)

Per-element state: the captured `isDown`/`startX`/`startScrollLeft`/
`hasDragged` closure variables, the element's `scrollLeft`, and the
`is-dragging` class.  `dragStep` returns the next state and whether the
event was a suppressed click (`preventDefault` + `stopPropagation` in
the capture-phase click handler). -/

structure DragState where
  isDown : Bool
  startX : Int
  startScrollLeft : Int
  hasDragged : Bool
  scrollLeft : Int
  draggingClass : Bool
  deriving Repr, DecidableEq

inductive DragEvent where
  | mousedown (button : Nat) (pageX : Int)
  | mousemove (pageX : Int)
  | mouseup
  | mouseleave
  | click
  deriving Repr, DecidableEq

def DRAG_THRESHOLD : Int := 6

/-- One DOM event against the handlers of `click_hold_drag_scroll.js`. -/
def dragStep (s : DragState) : DragEvent → DragState × Bool
  | .mousedown button pageX =>
    if button != 0 then (s, false)
    else ({ s with
            isDown := true, hasDragged := false, startX := pageX,
            startScrollLeft := s.scrollLeft }, false)
  | .mousemove pageX =>
    if !s.isDown then (s, false)
    else
      let walk := pageX - s.startX
      if DRAG_THRESHOLD < |walk| then
        ({ s with
           hasDragged := true, draggingClass := true,
           scrollLeft := s.startScrollLeft - walk }, false)
      else (s, false)
  | .mouseup => ({ s with isDown := false, draggingClass := false }, false)
  | .mouseleave => ({ s with isDown := false, draggingClass := false }, false)
  | .click =>
    if s.hasDragged then ({ s with hasDragged := false }, true)
    else (s, false)

/-- Run a trace of events; returns the final state and, per event, the
click-suppression flag of that event. -/
def dragRun (s : DragState) : List DragEvent → DragState × List Bool
  | [] => (s, [])
  | e :: rest =>
    let out := dragStep s e
    let tl := dragRun out.1 rest
    (tl.1, out.2 :: tl.2)

/-! ## Helper lemmas -/

theorem stepOk_iff (st : FormState) (sels : List String) :
    stepOk st sels = true ↔
      ∀ sel ∈ sels, ∃ w, st.fields.lookup sel = some w ∧ jsTrim w ≠ "" := by
  unfold stepOk
  rw [List.all_eq_true]
  constructor
  · intro h sel hs
    have hv := h sel hs
    unfold hasValue at hv
    cases hl : st.fields.lookup sel with
    | none => rw [hl] at hv; exact absurd hv (by simp)
    | some w => rw [hl] at hv; exact ⟨w, rfl, by simpa using hv⟩
  · intro h sel hs
    obtain ⟨w, hw, hne⟩ := h sel hs
    unfold hasValue
    rw [hw]
    simpa using hne

theorem setPill_mem_success (cls : List String) (ok : Bool) :
    "bg-success" ∈ setPill cls ok ↔ ok = true := by
  unfold setPill
  cases ok <;> simp +decide [List.mem_filter, pillManaged]

theorem setPill_idem (cls : List String) (ok : Bool) :
    setPill (setPill cls ok) ok = setPill cls ok := by
  unfold setPill
  cases ok <;> simp +decide [List.filter_append, List.filter_filter]

theorem msgFilter_idem (cls : List String) (b : Bool) :
    ((cls.filter (fun c => !(msgManaged.contains c)) ++
        (if b then ["text-success"] else ["text-muted"])).filter
          (fun c => !(msgManaged.contains c))) =
      cls.filter (fun c => !(msgManaged.contains c)) := by
  cases b <;> simp +decide [List.filter_append, List.filter_filter]

/-! ## Claim theorems: StepGate -/

/-- C1: after `sync` runs, the activation button's `disabled` attribute is
`false` iff all five step predicates (the four required-field groups and
the media predicate) hold; otherwise the button is disabled. -/
theorem sync_activation_iff (st : FormState) (v : Visible) :
    (sync st v).activateDisabled = false ↔
      (stepOk st requiredStep1 = true ∧ stepOk st requiredStep2 = true ∧
       stepOk st requiredStep3 = true ∧ stepOk st requiredStep4 = true ∧
       mediaSelected st = true) := by
  have hd : (sync st v).activateDisabled =
      !(stepOk st requiredStep1 && stepOk st requiredStep2 && stepOk st requiredStep3 &&
        stepOk st requiredStep4 && mediaSelected st) := rfl
  rw [hd]
  simp [and_assoc]

/-- C2: `sync` marks step i (i = 1..4) complete (success pill class) iff
every selector in step i's required group resolves to an element whose
trimmed value is non-blank, and marks step 5 complete iff the number of
selected image files plus document files is greater than zero. -/
theorem sync_marks_steps_iff (st : FormState) (v : Visible) :
    ("bg-success" ∈ (sync st v).s1 ↔
      ∀ sel ∈ requiredStep1, ∃ w, st.fields.lookup sel = some w ∧ jsTrim w ≠ "") ∧
    ("bg-success" ∈ (sync st v).s2 ↔
      ∀ sel ∈ requiredStep2, ∃ w, st.fields.lookup sel = some w ∧ jsTrim w ≠ "") ∧
    ("bg-success" ∈ (sync st v).s3 ↔
      ∀ sel ∈ requiredStep3, ∃ w, st.fields.lookup sel = some w ∧ jsTrim w ≠ "") ∧
    ("bg-success" ∈ (sync st v).s4 ↔
      ∀ sel ∈ requiredStep4, ∃ w, st.fields.lookup sel = some w ∧ jsTrim w ≠ "") ∧
    ("bg-success" ∈ (sync st v).s5 ↔
      st.imgFiles.getD 0 + st.docFiles.getD 0 > 0) := by
  have h1 : (sync st v).s1 = setPill v.s1 (stepOk st requiredStep1) := rfl
  have h2 : (sync st v).s2 = setPill v.s2 (stepOk st requiredStep2) := rfl
  have h3 : (sync st v).s3 = setPill v.s3 (stepOk st requiredStep3) := rfl
  have h4 : (sync st v).s4 = setPill v.s4 (stepOk st requiredStep4) := rfl
  have h5 : (sync st v).s5 = setPill v.s5 (mediaSelected st) := rfl
  rw [h1, h2, h3, h4, h5]
  rw [setPill_mem_success, setPill_mem_success, setPill_mem_success, setPill_mem_success,
    setPill_mem_success]
  rw [stepOk_iff, stepOk_iff, stepOk_iff, stepOk_iff]
  refine ⟨Iff.rfl, Iff.rfl, Iff.rfl, Iff.rfl, ?_⟩
  unfold mediaSelected
  exact decide_eq_true_iff

/-- C3: `sync` is idempotent: for every form state and prior visible
state, running it twice with no intervening field change produces exactly
the same visible state (pill classes, messages, disabled flag) as running
it once. -/
theorem sync_idempotent (st : FormState) (v : Visible) :
    sync st (sync st v) = sync st v := by
  simp only [sync]
  simp only [setPill_idem, msgFilter_idem]

/-- C10: a required-field selector resolving to no DOM element makes
`hasValue` return `false`, every group containing it incomplete, and the
activation button disabled; an absent file input contributes zero files
to `mediaSelected`. -/
theorem sync_missing_element_safe (st : FormState) (v : Visible) (sel : String)
    (h : st.fields.lookup sel = none) :
    hasValue st sel = false ∧
    (∀ g ∈ [requiredStep1, requiredStep2, requiredStep3, requiredStep4],
      sel ∈ g → stepOk st g = false) ∧
    ((sel ∈ requiredStep1 ∨ sel ∈ requiredStep2 ∨ sel ∈ requiredStep3 ∨
        sel ∈ requiredStep4) → (sync st v).activateDisabled = true) ∧
    (st.imgFiles = none → mediaSelected st = decide (st.docFiles.getD 0 > 0)) := by
  have hval : hasValue st sel = false := by unfold hasValue; rw [h]
  have hstep : ∀ g, sel ∈ g → stepOk st g = false := by
    intro g hg
    unfold stepOk
    by_contra hc
    rw [Bool.not_eq_false] at hc
    have := List.all_eq_true.mp hc sel hg
    rw [hval] at this
    exact Bool.false_ne_true this
  have hd : (sync st v).activateDisabled =
      !(stepOk st requiredStep1 && stepOk st requiredStep2 && stepOk st requiredStep3 &&
        stepOk st requiredStep4 && mediaSelected st) := rfl
  refine ⟨hval, by intro g hg; exact hstep g, ?_, ?_⟩
  · intro hmem
    rw [hd]
    rcases hmem with h1 | h2 | h3 | h4
    · rw [hstep _ h1]; simp
    · rw [hstep _ h2]; simp
    · rw [hstep _ h3]; simp
    · rw [hstep _ h4]; simp
  · intro him
    unfold mediaSelected
    rw [him]
    simp

/-- C10 witness: the theorem applied at the empty form state (all
elements missing) and the `#id_country` selector of step 4. -/
theorem sync_missing_element_safe_witness :
    hasValue ⟨[], none, none⟩ "#id_country" = false ∧
    (∀ g ∈ [requiredStep1, requiredStep2, requiredStep3, requiredStep4],
      "#id_country" ∈ g → stepOk ⟨[], none, none⟩ g = false) ∧
    (("#id_country" ∈ requiredStep1 ∨ "#id_country" ∈ requiredStep2 ∨
        "#id_country" ∈ requiredStep3 ∨ "#id_country" ∈ requiredStep4) →
      (sync ⟨[], none, none⟩
        ⟨[], [], [], [], [], [], [], [], [], [], [], [], [], "", [], "", false⟩).activateDisabled
        = true) ∧
    ((⟨[], none, none⟩ : FormState).imgFiles = none →
      mediaSelected ⟨[], none, none⟩ =
        decide ((⟨[], none, none⟩ : FormState).docFiles.getD 0 > 0)) :=
  sync_missing_element_safe ⟨[], none, none⟩
    ⟨[], [], [], [], [], [], [], [], [], [], [], [], [], "", [], "", false⟩
    "#id_country" rfl

/-! ## Helper lemmas for the cascade select model -/

theorem foldl_appendOpt_opts (items : List String) (s : Select) (p : String → Bool) :
    (items.foldl (fun acc v => appendOpt acc ⟨v, v⟩ (p v)) s).opts =
      s.opts ++ items.map (fun v => (⟨v, v⟩ : SelOption)) := by
  induction items generalizing s with
  | nil => simp
  | cons a l ih =>
    rw [List.foldl_cons, ih]
    simp [appendOpt]

theorem foldl_appendOpt_disabled (items : List String) (s : Select) (p : String → Bool) :
    (items.foldl (fun acc v => appendOpt acc ⟨v, v⟩ (p v)) s).disabled = s.disabled := by
  induction items generalizing s with
  | nil => rfl
  | cons a l ih =>
    rw [List.foldl_cons, ih]
    simp [appendOpt]

theorem foldl_appendOpt_value (items : List String) (s : Select) (p : String → Bool)
    (sel : String) (hp : ∀ v, p v = true ↔ (v = sel ∧ sel ≠ "")) (hne : s.opts ≠ []) :
    (items.foldl (fun acc v => appendOpt acc ⟨v, v⟩ (p v)) s).value =
      if sel ≠ "" ∧ sel ∈ items then sel else s.value := by
  induction items generalizing s with
  | nil => simp
  | cons a l ih =>
    rw [List.foldl_cons, ih _ (by simp [appendOpt])]
    by_cases hpa : p a = true
    · obtain ⟨rfl, hs⟩ := (hp a).mp hpa
      have hv : (appendOpt s ⟨a, a⟩ (p a)).value = a := by simp [appendOpt, hpa]
      rw [hv]
      simp [hs]
    · have hv : (appendOpt s ⟨a, a⟩ (p a)).value = s.value := by
        simp only [appendOpt]
        rw [if_neg hpa, if_neg (by simpa using hne)]
      rw [hv]
      have hna : ¬(a = sel ∧ sel ≠ "") := fun hc => hpa ((hp a).mpr hc)
      by_cases hs : sel = ""
      · simp [hs]
      · have ha : ¬sel = a := fun he => hna ⟨he.symm, hs⟩
        simp [List.mem_cons, hs, ha]

theorem setOptions_opts (el : Select) (items : List String) (ph sel : String) :
    (setOptions el items ph sel).opts =
      ⟨"", ph⟩ :: items.map (fun v => (⟨v, v⟩ : SelOption)) := by
  unfold setOptions
  by_cases hs : (sel != "") = true
  · rw [if_pos hs]
    unfold setValue
    split
    · simpa using foldl_appendOpt_opts items _ _
    · simpa using foldl_appendOpt_opts items _ _
  · rw [if_neg hs]
    simpa using foldl_appendOpt_opts items _ _

theorem map_value_opts (items : List String) (ph : String) :
    ((⟨"", ph⟩ :: items.map (fun v => (⟨v, v⟩ : SelOption))).map SelOption.value) =
      "" :: items := by
  simp only [List.map_cons, List.map_map]
  have : (SelOption.value ∘ fun v => (⟨v, v⟩ : SelOption)) = id := rfl
  rw [this, List.map_id]

theorem setOptions_value (el : Select) (items : List String) (ph sel : String) :
    (setOptions el items ph sel).value = if sel ≠ "" ∧ sel ∈ items then sel else "" := by
  have hp : ∀ v, ((sel != "") && (v == sel)) = true ↔ (v = sel ∧ sel ≠ "") := by
    intro v
    rw [Bool.and_eq_true, bne_iff_ne, beq_iff_eq]
    exact and_comm
  unfold setOptions
  by_cases hsel : sel = ""
  · rw [if_neg (by simp [hsel])]
    rw [foldl_appendOpt_value _ _ _ sel hp (by simp [appendOpt])]
    simp [hsel, appendOpt]
  · rw [if_pos (by simpa using hsel)]
    unfold setValue
    rw [foldl_appendOpt_opts]
    have hopts : (appendOpt { el with opts := [], value := "" } ⟨"", ph⟩ false).opts =
        [⟨"", ph⟩] := rfl
    rw [hopts]
    rw [show ([(⟨"", ph⟩ : SelOption)] ++ items.map (fun v => (⟨v, v⟩ : SelOption))) =
      ⟨"", ph⟩ :: items.map (fun v => (⟨v, v⟩ : SelOption)) from rfl]
    rw [map_value_opts]
    by_cases hmem : sel ∈ items
    · rw [if_pos (List.elem_eq_true_of_mem (List.mem_cons_of_mem _ hmem))]
      rw [if_pos ⟨hsel, hmem⟩]
    · rw [if_neg ?notin, if_neg (fun hc => hmem hc.2)]
      case notin =>
        intro hc
        have := List.mem_of_elem_eq_true hc
        rcases List.mem_cons.mp this with h | h
        · exact hsel h
        · exact hmem h

theorem setOptions_disabled (el : Select) (items : List String) (ph sel : String) :
    (setOptions el items ph sel).disabled = el.disabled := by
  unfold setOptions
  have hfold := foldl_appendOpt_disabled items
    (appendOpt { el with opts := [], value := "" } ⟨"", ph⟩ false)
    (fun v => (sel != "") && (v == sel))
  by_cases hs : (sel != "") = true
  · rw [if_pos hs]
    unfold setValue
    split <;> simpa [appendOpt] using hfold
  · rw [if_neg hs]
    simpa [appendOpt] using hfold

theorem setOptions_nil (el : Select) (ph : String) :
    setOptions el [] ph "" = { el with opts := [⟨"", ph⟩], value := "" } := rfl

theorem resetSelect_eq (el : Select) (ph : String) :
    resetSelect el ph = { el with opts := [⟨"", ph⟩], value := "" } := rfl

/-! ## Claim theorems: location cascade -/

/-- C4 counterexample: `loadCounties` in `search_filters.js` does not
check `res.ok`; a non-success response whose JSON body still carries a
`counties` list is appended after the placeholder, so the county selector
is NOT left placeholder-only as the claim states. -/
theorem search_nonsuccess_counterexample :
    (searchLoadCounties ⟨[], "", false⟩ ⟨[], "", false⟩ "England"
        ⟨false, some ["Kent"]⟩ ⟨true, some []⟩ "" "").countyEl.opts ≠
      [⟨"", "Any county"⟩] := by
  decide

/-- C4 amended: clearing the country (empty key) or a missing endpoint
URL leaves the dependent selectors placeholder-only in both variants,
and a non-success response does so in the `listing_stepper.js` variant
(which checks `res.ok`); the `search_filters.js` variant parses the body
regardless of HTTP status, so there it holds only when the body carries
no counties list. -/
theorem cascade_cleared_amended
    (countyEl outcodeEl : Select) (CU OU country : String)
    (cResp : CountiesResp) (oResp : OutcodesResp) (selC initO : String)
    (h1 : jsTrim country = "" ∨ CU = "" ∨ cResp.ok = false)
    (oEl : Select) (OU2 cv co : String) (oResp2 : OutcodesResp) (selO : String)
    (h2 : jsTrim (if co != "" then co else cv) = "" ∨ OU2 = "" ∨ oResp2.ok = false)
    (sCountyEl sOutcodeEl : Select) (sCountry : String) (sCResp : CountiesResp)
    (sOResp : OutcodesResp) (sSelC sOds : String)
    (h3 : sCountry = "" ∨ (sCResp.counties = none ∧ sSelC = "")) :
    ((loadCounties countyEl outcodeEl CU OU country cResp oResp selC initO).countyEl.opts =
        [⟨"", "Select county"⟩] ∧
      (loadCounties countyEl outcodeEl CU OU country cResp oResp selC initO).countyEl.value =
        "" ∧
      (loadCounties countyEl outcodeEl CU OU country cResp oResp selC initO).outcodeEl.opts =
        [⟨"", "Select postcode prefix"⟩] ∧
      (loadCounties countyEl outcodeEl CU OU country cResp oResp selC initO).outcodeEl.value =
        "") ∧
    ((loadOutcodes oEl OU2 cv oResp2 selO co).1.opts = [⟨"", "Select postcode prefix"⟩] ∧
      (loadOutcodes oEl OU2 cv oResp2 selO co).1.value = "") ∧
    ((searchLoadCounties sCountyEl sOutcodeEl sCountry sCResp sOResp sSelC sOds).countyEl.opts =
        [⟨"", "Any county"⟩] ∧
      (searchLoadCounties sCountyEl sOutcodeEl sCountry sCResp sOResp sSelC sOds).countyEl.value =
        "" ∧
      (searchLoadCounties sCountyEl sOutcodeEl sCountry sCResp sOResp sSelC sOds).outcodeEl.opts =
        [⟨"", "Any prefix"⟩] ∧
      (searchLoadCounties sCountyEl sOutcodeEl sCountry sCResp sOResp sSelC sOds).outcodeEl.value =
        "") := by
  refine ⟨?_, ?_, ?_⟩
  · unfold loadCounties
    by_cases hg : (jsTrim country == "" || (CU == "")) = true
    · rw [if_pos hg]
      exact ⟨rfl, rfl, rfl, rfl⟩
    · rw [if_neg hg]
      have hok : cResp.ok = false := by
        rcases h1 with h | h | h
        · exact absurd (by simp [h]) hg
        · exact absurd (by simp [h]) hg
        · exact h
      rw [if_pos (by simp [hok])]
      exact ⟨rfl, rfl, rfl, rfl⟩
  · unfold loadOutcodes
    by_cases hg : ((jsTrim (if co != "" then co else cv) == "") || (OU2 == "")) = true
    · rw [if_pos hg]
      exact ⟨rfl, rfl⟩
    · rw [if_neg hg]
      have hok : oResp2.ok = false := by
        rcases h2 with h | h | h
        · exact absurd (by rw [h]; simp) hg
        · exact absurd (by simp [h]) hg
        · exact h
      rw [if_pos (by simp [hok])]
      exact ⟨rfl, rfl⟩
  · unfold searchLoadCounties
    by_cases hg : (sCountry == "") = true
    · rw [if_pos hg]
      exact ⟨rfl, rfl, rfl, rfl⟩
    · rw [if_neg hg]
      rcases h3 with h | h
      · exact absurd (by simp [h]) hg
      · rw [h.1]
        rw [if_neg (by simp [h.2])]
        exact ⟨rfl, rfl, rfl, rfl⟩

/-- C4 amended, witness: all three guarded paths exercised at concrete
inputs (non-success listing counties response; empty outcodes key; empty
search country). -/
theorem cascade_cleared_amended_witness :
    ((loadCounties ⟨[⟨"x", "x"⟩], "x", false⟩ ⟨[], "", false⟩ "CU" "OU" "England"
        ⟨false, some ["Kent"]⟩ ⟨true, some []⟩ "Kent" "ME1").countyEl.opts =
        [⟨"", "Select county"⟩] ∧
      (loadCounties ⟨[⟨"x", "x"⟩], "x", false⟩ ⟨[], "", false⟩ "CU" "OU" "England"
        ⟨false, some ["Kent"]⟩ ⟨true, some []⟩ "Kent" "ME1").countyEl.value = "" ∧
      (loadCounties ⟨[⟨"x", "x"⟩], "x", false⟩ ⟨[], "", false⟩ "CU" "OU" "England"
        ⟨false, some ["Kent"]⟩ ⟨true, some []⟩ "Kent" "ME1").outcodeEl.opts =
        [⟨"", "Select postcode prefix"⟩] ∧
      (loadCounties ⟨[⟨"x", "x"⟩], "x", false⟩ ⟨[], "", false⟩ "CU" "OU" "England"
        ⟨false, some ["Kent"]⟩ ⟨true, some []⟩ "Kent" "ME1").outcodeEl.value = "") ∧
    ((loadOutcodes ⟨[⟨"y", "y"⟩], "y", false⟩ "OU" "" ⟨true, some ["ME1"]⟩ "ME1" "").1.opts =
        [⟨"", "Select postcode prefix"⟩] ∧
      (loadOutcodes ⟨[⟨"y", "y"⟩], "y", false⟩ "OU" "" ⟨true, some ["ME1"]⟩ "ME1" "").1.value =
        "") ∧
    ((searchLoadCounties ⟨[⟨"z", "z"⟩], "z", false⟩ ⟨[], "", false⟩ ""
        ⟨true, some ["Kent"]⟩ ⟨true, some []⟩ "Kent" "").countyEl.opts =
        [⟨"", "Any county"⟩] ∧
      (searchLoadCounties ⟨[⟨"z", "z"⟩], "z", false⟩ ⟨[], "", false⟩ ""
        ⟨true, some ["Kent"]⟩ ⟨true, some []⟩ "Kent" "").countyEl.value = "" ∧
      (searchLoadCounties ⟨[⟨"z", "z"⟩], "z", false⟩ ⟨[], "", false⟩ ""
        ⟨true, some ["Kent"]⟩ ⟨true, some []⟩ "Kent" "").outcodeEl.opts =
        [⟨"", "Any prefix"⟩] ∧
      (searchLoadCounties ⟨[⟨"z", "z"⟩], "z", false⟩ ⟨[], "", false⟩ ""
        ⟨true, some ["Kent"]⟩ ⟨true, some []⟩ "Kent" "").outcodeEl.value = "") :=
  cascade_cleared_amended ⟨[⟨"x", "x"⟩], "x", false⟩ ⟨[], "", false⟩ "CU" "OU" "England"
    ⟨false, some ["Kent"]⟩ ⟨true, some []⟩ "Kent" "ME1" (by decide)
    ⟨[⟨"y", "y"⟩], "y", false⟩ "OU" "" "" ⟨true, some ["ME1"]⟩ "ME1" (by decide)
    ⟨[⟨"z", "z"⟩], "z", false⟩ ⟨[], "", false⟩ "" ⟨true, some ["Kent"]⟩ ⟨true, some []⟩
    "Kent" "" (by decide)

/-- C5: every repopulation first resets to the single placeholder option
before the fetched options are added (the resulting option list is
exactly the placeholder followed by the fetched items, whatever was there
before), and a previously-known value ends up selected iff it appears in
the newly fetched set — a stale value never remains selected.  Stated for
`setOptions` of `listing_stepper.js` and for the county repopulation of
`search_filters.js`. -/
theorem repopulation_placeholder_no_stale
    (el : Select) (items : List String) (ph sel : String)
    (countyEl outcodeEl : Select) (countryValue : String)
    (cResp : CountiesResp) (oResp : OutcodesResp) (selectedCounty ods : String)
    (hc : countryValue ≠ "") :
    ((setOptions el items ph sel).opts =
        ⟨"", ph⟩ :: items.map (fun v => (⟨v, v⟩ : SelOption)) ∧
      (setOptions el items ph sel).value =
        (if sel ≠ "" ∧ sel ∈ items then sel else "") ∧
      ((setOptions el items ph sel).value ≠ "" → sel ∈ items)) ∧
    ((searchLoadCounties countyEl outcodeEl countryValue cResp oResp
        selectedCounty ods).countyEl.opts =
        ⟨"", "Any county"⟩ :: (cResp.counties.getD []).map (fun v => (⟨v, v⟩ : SelOption)) ∧
      (searchLoadCounties countyEl outcodeEl countryValue cResp oResp
        selectedCounty ods).countyEl.value =
        (if selectedCounty ≠ "" ∧ selectedCounty ∈ cResp.counties.getD []
         then selectedCounty else "")) := by
  refine ⟨⟨setOptions_opts el items ph sel, setOptions_value el items ph sel, ?_⟩, ?_⟩
  · intro hne
    rw [setOptions_value] at hne
    by_cases hcond : sel ≠ "" ∧ sel ∈ items
    · exact hcond.2
    · rw [if_neg hcond] at hne
      exact absurd rfl hne
  · have hp : ∀ v, ((selectedCounty != "") && (selectedCounty == v)) = true ↔
        (v = selectedCounty ∧ selectedCounty ≠ "") := by
      intro v
      rw [Bool.and_eq_true, bne_iff_ne, beq_iff_eq]
      constructor
      · rintro ⟨hx, hy⟩
        exact ⟨hy.symm, hx⟩
      · rintro ⟨hx, hy⟩
        exact ⟨hy, hx.symm⟩
    have hopts := foldl_appendOpt_opts (cResp.counties.getD [])
      { resetSelect countyEl "Any county" with disabled := true }
      (fun c => (selectedCounty != "") && (selectedCounty == c))
    have hval := foldl_appendOpt_value (cResp.counties.getD [])
      { resetSelect countyEl "Any county" with disabled := true }
      (fun c => (selectedCounty != "") && (selectedCounty == c)) selectedCounty hp
      (by simp [resetSelect, appendOpt])
    unfold searchLoadCounties
    rw [if_neg (by simpa using hc)]
    split
    · exact ⟨by rw [hopts]; rfl, by rw [hval]; rfl⟩
    · exact ⟨by rw [hopts]; rfl, by rw [hval]; rfl⟩

/-- C5 witness: repopulating with items `["Kent", "Essex"]` and stale
saved value `"Surrey"` leaves the value cleared, not `"Surrey"`; the
search variant with a matching saved value selects it. -/
theorem repopulation_placeholder_no_stale_witness :
    ((setOptions ⟨[⟨"old", "old"⟩], "old", false⟩ ["Kent", "Essex"] "Select county"
        "Surrey").opts =
        ⟨"", "Select county"⟩ ::
          (["Kent", "Essex"].map (fun v => (⟨v, v⟩ : SelOption))) ∧
      (setOptions ⟨[⟨"old", "old"⟩], "old", false⟩ ["Kent", "Essex"] "Select county"
        "Surrey").value =
        (if "Surrey" ≠ "" ∧ "Surrey" ∈ ["Kent", "Essex"] then "Surrey" else "") ∧
      ((setOptions ⟨[⟨"old", "old"⟩], "old", false⟩ ["Kent", "Essex"] "Select county"
        "Surrey").value ≠ "" → "Surrey" ∈ ["Kent", "Essex"])) ∧
    ((searchLoadCounties ⟨[⟨"old", "old"⟩], "old", false⟩ ⟨[], "", false⟩ "England"
        ⟨true, some ["Kent"]⟩ ⟨true, some []⟩ "Kent" "").countyEl.opts =
        ⟨"", "Any county"⟩ ::
          (((⟨true, some ["Kent"]⟩ : CountiesResp).counties.getD []).map
            (fun v => (⟨v, v⟩ : SelOption))) ∧
      (searchLoadCounties ⟨[⟨"old", "old"⟩], "old", false⟩ ⟨[], "", false⟩ "England"
        ⟨true, some ["Kent"]⟩ ⟨true, some []⟩ "Kent" "").countyEl.value =
        (if "Kent" ≠ "" ∧ "Kent" ∈ ((⟨true, some ["Kent"]⟩ : CountiesResp).counties.getD [])
         then "Kent" else "")) :=
  repopulation_placeholder_no_stale ⟨[⟨"old", "old"⟩], "old", false⟩ ["Kent", "Essex"]
    "Select county" "Surrey" ⟨[⟨"old", "old"⟩], "old", false⟩ ⟨[], "", false⟩ "England"
    ⟨true, some ["Kent"]⟩ ⟨true, some []⟩ "Kent" "" (by decide)

/-- C8: with counties response `{counties:["Kent"]}` and previously saved
county `"Kent"`, both cascade variants leave the county selector with
`"Kent"` selected and then issue the outcode fetch keyed by county
`"Kent"`. -/
theorem loadCounties_kent_selected_and_cascades :
    ((loadCounties ⟨[], "", false⟩ ⟨[], "", false⟩ "CU" "OU" "England"
        ⟨true, some ["Kent"]⟩ ⟨true, some ["ME1"]⟩ "Kent" "ME1").countyEl.value = "Kent" ∧
      (loadCounties ⟨[], "", false⟩ ⟨[], "", false⟩ "CU" "OU" "England"
        ⟨true, some ["Kent"]⟩ ⟨true, some ["ME1"]⟩ "Kent" "ME1").fetches =
        [("counties", "England"), ("outcodes", "Kent")]) ∧
    ((searchLoadCounties ⟨[], "", false⟩ ⟨[], "", false⟩ "England"
        ⟨true, some ["Kent"]⟩ ⟨true, some ["ME1"]⟩ "Kent" "").countyEl.value = "Kent" ∧
      (searchLoadCounties ⟨[], "", false⟩ ⟨[], "", false⟩ "England"
        ⟨true, some ["Kent"]⟩ ⟨true, some ["ME1"]⟩ "Kent" "").fetches =
        [("counties", "england"), ("outcodes", "Kent")]) := by
  decide

/-! ## Helper lemmas for the pledge debounce -/

theorem burst_fireTimes : ∀ (evs : List (Nat × String)) (tl : Nat) (vl : String),
    burst evs = true → evs.getLast? = some (tl, vl) → fireTimes evs = [tl + 300] := by
  intro evs
  induction evs with
  | nil =>
    intro tl vl _ hl
    simp at hl
  | cons e rest ih =>
    intro tl vl hb hl
    obtain ⟨t1, v1⟩ := e
    cases rest with
    | nil =>
      simp only [List.getLast?_singleton, Option.some.injEq, Prod.mk.injEq] at hl
      rw [fireTimes, hl.1]
    | cons e2 rest2 =>
      obtain ⟨t2, v2⟩ := e2
      rw [burst] at hb
      have hb1 := (Bool.and_eq_true _ _).mp hb
      have hlt : t2 < t1 + 300 := of_decide_eq_true ((Bool.and_eq_true _ _).mp hb1.1).2
      rw [List.getLast?_cons_cons] at hl
      rw [fireTimes, if_pos hlt]
      exact ih tl vl hb1.2 hl

theorem burst_times_le : ∀ (evs : List (Nat × String)) (tl : Nat) (vl : String),
    burst evs = true → evs.getLast? = some (tl, vl) → ∀ p ∈ evs, p.1 ≤ tl := by
  intro evs
  induction evs with
  | nil =>
    intro tl vl _ hl
    simp at hl
  | cons e rest ih =>
    intro tl vl hb hl p hp
    obtain ⟨t1, v1⟩ := e
    cases rest with
    | nil =>
      simp only [List.getLast?_singleton, Option.some.injEq, Prod.mk.injEq] at hl
      rcases List.mem_singleton.mp hp with rfl
      simpa using Nat.le_of_eq hl.1
    | cons e2 rest2 =>
      obtain ⟨t2, v2⟩ := e2
      rw [burst] at hb
      have hb1 := (Bool.and_eq_true _ _).mp hb
      have hle : t1 ≤ t2 := of_decide_eq_true ((Bool.and_eq_true _ _).mp hb1.1).1
      rw [List.getLast?_cons_cons] at hl
      rcases List.mem_cons.mp hp with rfl | hp2
      · have ht2 : t2 ≤ tl :=
          ih tl vl hb1.2 hl (t2, v2) (List.mem_cons_self _ _)
        exact Nat.le_trans hle ht2
      · exact ih tl vl hb1.2 hl p hp2

theorem valueAt_last : ∀ (evs : List (Nat × String)) (tl : Nat) (vl : String)
    (tq : Nat) (cur : String),
    evs.getLast? = some (tl, vl) → (∀ p ∈ evs, p.1 ≤ tq) → valueAt evs tq cur = vl := by
  intro evs
  induction evs with
  | nil =>
    intro tl vl tq cur hl _
    simp at hl
  | cons e rest ih =>
    intro tl vl tq cur hl hle
    obtain ⟨t1, v1⟩ := e
    cases rest with
    | nil =>
      simp only [List.getLast?_singleton, Option.some.injEq, Prod.mk.injEq] at hl
      rw [valueAt, if_pos (hle (t1, v1) (List.mem_cons_self _ _))]
      rw [valueAt]
      exact hl.2
    | cons e2 rest2 =>
      rw [List.getLast?_cons_cons] at hl
      rw [valueAt, if_pos (hle (t1, v1) (List.mem_cons_self _ _))]
      exact ih tl vl tq v1 hl (fun p hp => hle p (List.mem_cons_of_mem _ hp))

/-! ## Claim theorems: pledge estimator debounce -/

/-- C6: over any burst of input events (consecutive gaps strictly inside
the 300 ms debounce window), the pledge estimator issues at most one
fetch, keyed by the most recent value; a blank (empty after trim) value
issues no request. -/
theorem pledge_debounce (evs : List (Nat × String)) (tl : Nat) (vl : String)
    (hb : burst evs = true) (hl : evs.getLast? = some (tl, vl)) :
    pledgeFetches evs = if jsTrim vl == "" then [] else [jsTrim vl] := by
  unfold pledgeFetches
  rw [burst_fireTimes evs tl vl hb hl]
  have hv : valueAt evs (tl + 300) "" = vl :=
    valueAt_last evs tl vl (tl + 300) "" hl
      (fun p hp => Nat.le_trans (burst_times_le evs tl vl hb hl p hp) (Nat.le_add_right _ _))
  by_cases hvv : (jsTrim vl == "") = true
  · simp [List.filterMap, hv, hvv]
  · simp [List.filterMap, hv, hvv]

/-- C6 witness: inputs `"100"` then `"200"` 100 ms apart issue exactly
one fetch, keyed by amount `"200"`. -/
theorem pledge_debounce_witness :
    pledgeFetches [(0, "100"), (100, "200")] =
      (if jsTrim "200" == "" then [] else [jsTrim "200"]) ∧
    pledgeFetches [(0, "100"), (100, "200")] = ["200"] := by
  have h := pledge_debounce [(0, "100"), (100, "200")] 100 "200" (by decide) (by decide)
  exact ⟨h, by rw [h]; decide⟩

/-! ## Helper lemmas for the drag-to-scroll state machine -/

theorem dragStep_mousedown (s : DragState) (x : Int) :
    dragStep s (.mousedown 0 x) =
      ({ s with
         isDown := true, hasDragged := false, startX := x,
         startScrollLeft := s.scrollLeft }, false) := by
  simp [dragStep]

theorem dragStep_small_move (s : DragState) (x : Int) (hx : |x - s.startX| ≤ 6) :
    dragStep s (.mousemove x) = (s, false) := by
  simp only [dragStep]
  by_cases hd : (!s.isDown) = true
  · rw [if_pos hd]
  · rw [if_neg hd]
    rw [if_neg (show ¬DRAG_THRESHOLD < |x - s.startX| from not_lt.mpr hx)]

theorem dragRun_small_moves (xs : List Int) (s : DragState) (es : List DragEvent)
    (hxs : ∀ x ∈ xs, |x - s.startX| ≤ 6) :
    dragRun s (xs.map DragEvent.mousemove ++ es) =
      ((dragRun s es).1, xs.map (fun _ => false) ++ (dragRun s es).2) := by
  induction xs with
  | nil => simp
  | cons a l ih =>
    have hstep := dragStep_small_move s a (hxs a (List.mem_cons_self _ _))
    have ih2 := ih (fun x hx => hxs x (List.mem_cons_of_mem _ hx))
    simp only [List.map_cons, List.cons_append, dragRun, hstep, List.append_eq]
    rw [ih2]

theorem dragRun_append (s : DragState) (l1 l2 : List DragEvent) :
    dragRun s (l1 ++ l2) =
      ((dragRun (dragRun s l1).1 l2).1,
        (dragRun s l1).2 ++ (dragRun (dragRun s l1).1 l2).2) := by
  induction l1 generalizing s with
  | nil => simp [dragRun]
  | cons e t ih => simp [dragRun, ih]

theorem dragRun_up_click_nodrag (st : DragState) (h : st.hasDragged = false) :
    dragRun st [.mouseup, .click] =
      ({ st with isDown := false, draggingClass := false }, [false, false]) := by
  simp [dragRun, dragStep, h]

theorem dragRun_nodrag_gesture (s : DragState) (x0 : Int) (xs : List Int)
    (hxs : ∀ x ∈ xs, |x - x0| ≤ 6) :
    dragRun s (DragEvent.mousedown 0 x0 ::
        (xs.map DragEvent.mousemove ++ [DragEvent.mouseup, DragEvent.click])) =
      ({ s with
         isDown := false, hasDragged := false, startX := x0,
         startScrollLeft := s.scrollLeft, draggingClass := false },
       false :: (xs.map (fun _ => false) ++ [false, false])) := by
  simp only [dragRun, dragStep_mousedown]
  rw [dragRun_small_moves xs _ _ hxs]
  rw [dragRun_up_click_nodrag _ rfl]

/-! ## Claim theorems: drag-to-scroll -/

/-- C7: from any initial state, a gesture whose mousemoves all stay
within the 6px threshold of the press point does not suppress any event
(in particular the subsequent click); a gesture with a move beyond the
threshold suppresses exactly the next click — clearing the flag in doing
so — and a following non-dragging gesture's click is not suppressed. -/
theorem drag_click_suppression (s : DragState) (x0 : Int) (xs : List Int)
    (hxs : ∀ x ∈ xs, |x - x0| ≤ 6)
    (y0 y1 : Int) (hy : 6 < |y1 - y0|) (z0 : Int) (zs : List Int)
    (hzs : ∀ z ∈ zs, |z - z0| ≤ 6) :
    (dragRun s (DragEvent.mousedown 0 x0 ::
        (xs.map DragEvent.mousemove ++ [DragEvent.mouseup, DragEvent.click]))).2 =
      false :: (xs.map (fun _ => false) ++ [false, false]) ∧
    (dragRun s (DragEvent.mousedown 0 y0 :: DragEvent.mousemove y1 :: DragEvent.mouseup ::
        DragEvent.click :: DragEvent.mousedown 0 z0 ::
        (zs.map DragEvent.mousemove ++ [DragEvent.mouseup, DragEvent.click]))).2 =
      false :: false :: false :: true :: false ::
        (zs.map (fun _ => false) ++ [false, false]) := by
  constructor
  · rw [dragRun_nodrag_gesture s x0 xs hxs]
  · have hfirst1 : (dragRun s [DragEvent.mousedown 0 y0, DragEvent.mousemove y1,
        DragEvent.mouseup, DragEvent.click]).1 =
        { s with
          isDown := false, hasDragged := false, startX := y0,
          startScrollLeft := s.scrollLeft, draggingClass := false,
          scrollLeft := s.scrollLeft - (y1 - y0) } := by
      simp [dragRun, dragStep, DRAG_THRESHOLD, hy]
    have hfirst2 : (dragRun s [DragEvent.mousedown 0 y0, DragEvent.mousemove y1,
        DragEvent.mouseup, DragEvent.click]).2 = [false, false, false, true] := by
      simp [dragRun, dragStep, DRAG_THRESHOLD, hy]
    have htail := dragRun_nodrag_gesture
      { s with
        isDown := false, hasDragged := false, startX := y0,
        startScrollLeft := s.scrollLeft, draggingClass := false,
        scrollLeft := s.scrollLeft - (y1 - y0) } z0 zs hzs
    have hsplit : (DragEvent.mousedown 0 y0 :: DragEvent.mousemove y1 ::
        DragEvent.mouseup :: DragEvent.click :: DragEvent.mousedown 0 z0 ::
        (zs.map DragEvent.mousemove ++ [DragEvent.mouseup, DragEvent.click])) =
        ([DragEvent.mousedown 0 y0, DragEvent.mousemove y1, DragEvent.mouseup,
          DragEvent.click] ++ (DragEvent.mousedown 0 z0 ::
          (zs.map DragEvent.mousemove ++ [DragEvent.mouseup, DragEvent.click]))) := rfl
    rw [hsplit, dragRun_append, hfirst1, hfirst2, htail]
    simp

/-- C7 witness: concrete gestures — press at 0, moves to 3 (≤ 6px), no
suppression; press at 0, move to 10 (> 6px), the next click suppressed,
the following small gesture's click not suppressed. -/
theorem drag_click_suppression_witness :
    (dragRun ⟨false, 0, 0, false, 100, false⟩ (DragEvent.mousedown 0 0 ::
        ([(3 : Int)].map DragEvent.mousemove ++ [DragEvent.mouseup, DragEvent.click]))).2 =
      false :: ([(3 : Int)].map (fun _ => false) ++ [false, false]) ∧
    (dragRun ⟨false, 0, 0, false, 100, false⟩ (DragEvent.mousedown 0 0 ::
        DragEvent.mousemove 10 :: DragEvent.mouseup :: DragEvent.click ::
        DragEvent.mousedown 0 0 ::
        ([(3 : Int)].map DragEvent.mousemove ++ [DragEvent.mouseup, DragEvent.click]))).2 =
      false :: false :: false :: true :: false ::
        ([(3 : Int)].map (fun _ => false) ++ [false, false]) :=
  drag_click_suppression ⟨false, 0, 0, false, 100, false⟩ 0 [3] (by decide)
    0 10 (by decide) 0 [3] (by decide)

/-- C9 counterexample: press at 0 with scroll offset 100, move to 10
(enters dragging, scroll 90), then move back to 3: the state is still
dragging (`hasDragged`, `is-dragging` class, pressed), the pointer delta
is 3, but the scroll offset is 90, not startOffset − deltaX = 97 — the
code only updates `scrollLeft` on moves beyond the threshold. -/
theorem drag_scroll_offset_counterexample :
    ((dragRun ⟨false, 0, 0, false, 100, false⟩
        [DragEvent.mousedown 0 0, DragEvent.mousemove 10,
          DragEvent.mousemove 3]).1.hasDragged = true ∧
     (dragRun ⟨false, 0, 0, false, 100, false⟩
        [DragEvent.mousedown 0 0, DragEvent.mousemove 10,
          DragEvent.mousemove 3]).1.draggingClass = true ∧
     (dragRun ⟨false, 0, 0, false, 100, false⟩
        [DragEvent.mousedown 0 0, DragEvent.mousemove 10,
          DragEvent.mousemove 3]).1.isDown = true) ∧
    (dragRun ⟨false, 0, 0, false, 100, false⟩
        [DragEvent.mousedown 0 0, DragEvent.mousemove 10,
          DragEvent.mousemove 3]).1.scrollLeft ≠ 100 - ((3 : Int) - 0) := by
  decide

/-- C9 amended: the pressed state transitions to dragging only through a
mousemove whose distance from the press point exceeds the 6px threshold;
a mousemove beyond the threshold while pressed sets
`scrollLeft = startOffset − deltaX` (and the dragging state), while a
mousemove within the threshold leaves the scroll offset unchanged — so
the offset equation holds after threshold-exceeding moves, not at every
instant of the dragging state. -/
theorem drag_threshold_scroll_amended (s : DragState) (x : Int) :
    ((dragStep s (.mousemove x)).1.hasDragged = true →
      s.hasDragged = true ∨ (s.isDown = true ∧ 6 < |x - s.startX|)) ∧
    (∀ e, (dragStep s e).1.hasDragged = true →
      s.hasDragged = true ∨ ∃ y, e = DragEvent.mousemove y) ∧
    (s.isDown = true → 6 < |x - s.startX| →
      (dragStep s (.mousemove x)).1.scrollLeft = s.startScrollLeft - (x - s.startX) ∧
      (dragStep s (.mousemove x)).1.hasDragged = true) ∧
    (|x - s.startX| ≤ 6 → (dragStep s (.mousemove x)).1.scrollLeft = s.scrollLeft) := by
  refine ⟨?_, ?_, ?_, ?_⟩
  · intro h
    simp only [dragStep] at h
    by_cases hd : (!s.isDown) = true
    · rw [if_pos hd] at h
      exact Or.inl h
    · by_cases ht : DRAG_THRESHOLD < |x - s.startX|
      · exact Or.inr ⟨by simpa using hd, ht⟩
      · rw [if_neg hd, if_neg ht] at h
        exact Or.inl h
  · intro e h
    cases e with
    | mousedown b px =>
      simp only [dragStep] at h
      by_cases hb : (b != 0) = true
      · rw [if_pos hb] at h
        exact Or.inl h
      · rw [if_neg hb] at h
        simp at h
    | mousemove px => exact Or.inr ⟨px, rfl⟩
    | mouseup => exact Or.inl h
    | mouseleave => exact Or.inl h
    | click =>
      by_cases hd : s.hasDragged = true
      · exact Or.inl hd
      · simp only [dragStep] at h
        rw [if_neg hd] at h
        exact Or.inl h
  · intro hd ht
    simp only [dragStep]
    rw [if_neg (by simp [hd]), if_pos (show DRAG_THRESHOLD < |x - s.startX| from ht)]
    exact ⟨rfl, rfl⟩
  · intro hx
    rw [dragStep_small_move s x hx]

/-- C9 amended, witness: pressed at 0 with captured offset 100, a move
to 10 sets `scrollLeft` to 100 − 10 = 90 and enters dragging. -/
theorem drag_threshold_scroll_amended_witness :
    (dragStep ⟨true, 0, 100, false, 100, false⟩ (.mousemove 10)).1.scrollLeft =
      (100 : Int) - ((10 : Int) - 0) ∧
    (dragStep ⟨true, 0, 100, false, 100, false⟩ (.mousemove 10)).1.hasDragged = true :=
  (drag_threshold_scroll_amended ⟨true, 0, 100, false, 100, false⟩ 10).2.2.1 rfl (by decide)

end GSC
